import Mathlib

/-!
Shallow embedding of the `calculator` repository's core pipeline
(src/expression_parser.rs and src/expression_parser/reverse_polish_notation.rs).

Strings are modelled as `List Char`.  Rust `i32` values are modelled as `Int`
with the range enforced exactly where the source enforces it (`str::parse::<i32>`).
The evaluator's `f32` values are modelled as exact rationals `Rat`; every claim
settled against this model either does not depend on rounding (pop order,
token-sequence shape) or only involves operations that are exact in IEEE-754
single precision (small integers, divisions with representable results).
Rust `char::is_numeric` is modelled as `Char.isDigit`: the two differ only on
non-ASCII characters, and every non-ASCII character is rejected by
`check_char_validity` before any `is_numeric` call can distinguish them, so the
model is observationally equal to the source.
-/

set_option maxHeartbeats 2000000

deriving instance DecidableEq for Except

namespace Calculator

/-- Models `ParsingError` (src/expression_parser.rs). -/
inductive ParsingError where
  | ParenthesesNotMatching
  | InvalidInput
deriving DecidableEq

/-- Models the `Operator` enum (src/expression_parser.rs). -/
inductive Operator where
  | Add
  | Substract
  | Divide
  | Multiply
  | LeftParenthesis
  | RightParenthesis
deriving DecidableEq

/-- Models `Operator::precedence` (src/expression_parser.rs, lines 51-62). -/
def Operator.precedence : Operator → Nat
  | .Add => 1
  | .Substract => 1
  | .Divide => 2
  | .Multiply => 2
  | .LeftParenthesis => 0
  | .RightParenthesis => 0

/-- Models `TryFrom<char> for Operator` (src/expression_parser.rs, lines 36-49). -/
def Operator.tryFrom (c : Char) : Except ParsingError Operator :=
  if c = '(' then .ok .LeftParenthesis
  else if c = ')' then .ok .RightParenthesis
  else if c = '+' then .ok .Add
  else if c = '-' then .ok .Substract
  else if c = '*' then .ok .Multiply
  else if c = '/' then .ok .Divide
  else .error .InvalidInput

/-- Models the `Token` enum (src/expression_parser.rs, lines 64-68). -/
inductive Token where
  | Operand (value : Int)
  | Operator (op : Operator)
deriving DecidableEq

/-- The Unicode White_Space code points, as recognised by Rust's
`char::is_whitespace` / `str::split_whitespace`. -/
def rustIsWhitespace (c : Char) : Bool :=
  [0x9, 0xA, 0xB, 0xC, 0xD, 0x20, 0x85, 0xA0, 0x1680,
   0x2000, 0x2001, 0x2002, 0x2003, 0x2004, 0x2005, 0x2006, 0x2007,
   0x2008, 0x2009, 0x200A, 0x2028, 0x2029, 0x202F, 0x205F, 0x3000].contains c.toNat

/-- Models `input.split_whitespace().collect::<String>()`
(src/expression_parser/reverse_polish_notation.rs, line 37): removing the
whitespace separators and concatenating the pieces is filtering out every
whitespace character. -/
def stripWhitespace (s : List Char) : List Char :=
  s.filter (fun c => !rustIsWhitespace c)

/-- Decimal accumulation used by Rust's integer parsing: digits are consumed
left to right, each multiplying the accumulator by 10. -/
def parseDigitsAux : Nat → List Char → Option Nat
  | acc, [] => some acc
  | acc, c :: rest =>
    if c.isDigit then parseDigitsAux (acc * 10 + (c.toNat - 48)) rest else none

/-- Digit-run parser: fails on an empty run or on any non-digit character,
as Rust's `str::parse` does after the optional sign. -/
def parseDigits (s : List Char) : Option Nat :=
  if s = [] then none else parseDigitsAux 0 s

/-- Models Rust `str::parse::<i32>`: an optional single leading `+` or `-`
followed by one or more ASCII digits, with the value required to fit in `i32`
(`-2147483648 ..= 2147483647`); anything else fails. -/
def rustParseI32 (s : List Char) : Option Int :=
  match s with
  | [] => none
  | c :: rest =>
    if c = '+' then
      (parseDigits rest).bind (fun n => if n ≤ 2147483647 then some ((n : Int)) else none)
    else if c = '-' then
      (parseDigits rest).bind (fun n => if n ≤ 2147483648 then some (-(n : Int)) else none)
    else
      (parseDigits (c :: rest)).bind (fun n => if n ≤ 2147483647 then some ((n : Int)) else none)

/-- Models `parse_number` (src/expression_parser.rs, lines 88-105).  Note the
source tests `value.contains('-')` (a `-` anywhere in the string) but then
strips the *first* character `&value[1..]` and negates the parsed remainder. -/
def parse_number (value : List Char) : Except ParsingError Int :=
  let stripped := if value.contains '-' then value.drop 1 else value
  let mult : Int := if value.contains '-' then -1 else 1
  if stripped = [] then .error .InvalidInput
  else
    match rustParseI32 stripped with
    | none => .error .InvalidInput
    | some n => .ok (n * mult)

/-- The character loop of `evaluate_parenthes_match`: running signed balance,
erroring as soon as it goes negative after a parenthesis, and erroring at the
end when it is nonzero. -/
def parenLoop : Int → List Char → Except ParsingError Unit
  | s, [] => if s ≠ 0 then .error .ParenthesesNotMatching else .ok ()
  | s, c :: rest =>
    if c = '(' then
      if s + 1 < 0 then .error .ParenthesesNotMatching else parenLoop (s + 1) rest
    else if c = ')' then
      if s - 1 < 0 then .error .ParenthesesNotMatching else parenLoop (s - 1) rest
    else parenLoop s rest

/-- Models `evaluate_parenthes_match` (src/expression_parser.rs, lines 107-125). -/
def evaluate_parenthes_match (value : List Char) : Except ParsingError Unit :=
  parenLoop 0 value

/-- Models `check_char_validity` (src/expression_parser.rs, lines 127-133). -/
def check_char_validity (c : Char) : Except ParsingError Unit :=
  if !c.isDigit && !([')', '(', '+', '*', '-', '/'].contains c) then .error .InvalidInput
  else .ok ()

/-- The adjacency loop of the infix validator (src/expression_parser.rs,
lines 166-202), translated verbatim: the first argument models the mutable
`previous_char_option`; when it is `none` the iteration `continue`s before
the assignment at the end of the loop body, so it is never set. -/
def adjLoop : Option Char → List Char → Except ParsingError Unit
  | _, [] => .ok ()
  | prevOpt, c :: rest =>
    match check_char_validity c with
    | .error e => .error e
    | .ok _ =>
      match prevOpt with
      | none => adjLoop none rest
      | some prev =>
        if (!prev.isDigit || prev != ')') && [')', '+', '*', '-', '/'].contains c then
          .error .InvalidInput
        else if c.isDigit && prev == ')' then .error .InvalidInput
        else if c == '(' &&
            (prev == ')' || prev == '+' || prev == '-' || prev == '*' || prev == '/') then
          .error .InvalidInput
        else if !prev.isDigit && prev != ')' then .error .InvalidInput
        else adjLoop (some c) rest

/-- The trailing-character rejection of the validator: the source's chain of
`ends_with` tests on `(`, `-`, `+`, `*`, `/`. -/
def ends_with_invalid (t : List Char) : Bool :=
  match t.getLast? with
  | some c => ['(', '-', '+', '*', '/'].contains c
  | none => false

/-- The leading-character rejection of the validator: the source's chain of
`starts_with` tests on `)`, `+`, `*`, `/`. -/
def starts_with_invalid (t : List Char) : Bool :=
  match t.head? with
  | some c => [')', '+', '*', '/'].contains c
  | none => false

/-- The single-digit rejection: `input.len() == 1 && last.is_numeric()`.
`len` counts bytes, so it is 1 exactly for a one-character ASCII string, on
which `is_numeric` coincides with `Char.isDigit`; a single non-ASCII character
fails this test in the source and fails `isDigit` here, so the model agrees. -/
def is_single_digit_input (t : List Char) : Bool :=
  match t with
  | [c] => c.isDigit
  | _ => false

/-- Models `validate_infix_notation` (src/expression_parser.rs, lines 138-205):
empty check, trailing-character check, leading-character check, single-digit
check, parenthesis balance, then the per-character loop. -/
def validateExpr (input : List Char) : Except ParsingError Unit :=
  if input = [] then .error .InvalidInput
  else if ends_with_invalid input then .error .InvalidInput
  else if starts_with_invalid input then .error .InvalidInput
  else if is_single_digit_input input then .error .InvalidInput
  else
    match evaluate_parenthes_match input with
    | .error e => .error e
    | .ok _ => adjLoop none input

/-- Models `check_operator_char_order` (src/expression_parser.rs, lines
207-237); the `println!` diagnostics are side effects outside the model. -/
def check_operator_char_order (c : Char) (prev : Option Char) :
    Except ParsingError Unit :=
  if prev.isNone && !c.isDigit && c != '(' then .error .InvalidInput
  else if c == '(' then
    if (match prev with
        | some p => p == ')' || p.isDigit
        | none => false) then .error .InvalidInput
    else .ok ()
  else
    match prev with
    | some p => if !p.isDigit && p != ')' then .error .InvalidInput else .ok ()
    | none => .error .InvalidInput

/-- Models `is_minus_unary_operator` (src/expression_parser.rs, lines 239-255). -/
def is_minus_unary_operator (c : Char) (prev : Option Char) : Bool :=
  if c != '-' then false
  else
    match prev with
    | none => true
    | some p => if p.isDigit || p == ')' then false else true

/-- Models `push_number_to_rpn_container`
(src/expression_parser/reverse_polish_notation.rs, lines 10-22); returns the
extended container, and the caller clears the buffer. -/
def push_number_to_rpn_container (container : List Token) (parsing_number : List Char) :
    Except ParsingError (List Token) :=
  if parsing_number = [] then .ok container
  else
    match parse_number parsing_number with
    | .error e => .error e
    | .ok n => .ok (container ++ [Token.Operand n])

/-- The `)` handler's pop loop (reverse_polish_notation.rs, lines 82-88):
pop and append operators until a `(` is popped (and discarded); the stack top
is at the head of the list. -/
def popUntilLeft : List Operator → List Token → List Operator × List Token
  | [], out => ([], out)
  | o :: rest, out =>
    if o = Operator.LeftParenthesis then (rest, out)
    else popUntilLeft rest (out ++ [Token.Operator o])

/-- The binary-operator pop loop (reverse_polish_notation.rs, lines 101-108):
pop an operator; when the incoming operator's precedence is at most the popped
one's, append it to the output and keep popping; otherwise push it back and
stop. -/
def popWhileGE (op : Operator) : List Operator → List Token → List Operator × List Token
  | [], out => ([], out)
  | o :: rest, out =>
    if op.precedence ≤ o.precedence then popWhileGE op rest (out ++ [Token.Operator o])
    else (o :: rest, out)

/-- The binary-operator case of the conversion loop
(reverse_polish_notation.rs, lines 74-110, after the `(` and `)` cases):
an empty stack or a `(` on top means push; a strictly greater precedence
means push; otherwise run the pop loop and then push. -/
def handle_binary_operator (op : Operator) (stack : List Operator) (out : List Token) :
    List Operator × List Token :=
  match stack with
  | [] => ([op], out)
  | top :: _ =>
    if top = Operator.LeftParenthesis then (op :: stack, out)
    else if top.precedence < op.precedence then (op :: stack, out)
    else
      let popped := popWhileGE op stack out
      (op :: popped.1, popped.2)

/-- The mutable locals of `TryFrom<String> for ReversePolishNotation`
(reverse_polish_notation.rs, lines 39-43). -/
structure ConvState where
  parsing_number : List Char
  previous_char : Option Char
  operator_stack : List Operator
  rpn_container : List Token
  is_next_expression_negative : Bool
deriving DecidableEq

/-- One iteration of the conversion loop (reverse_polish_notation.rs,
lines 45-111), translated branch for branch. -/
def convStep (st : ConvState) (c : Char) : Except ParsingError ConvState :=
  if is_minus_unary_operator c st.previous_char then
    .ok { st with is_next_expression_negative := true }
  else if c.isDigit then
    .ok { st with
      parsing_number :=
        st.parsing_number ++ (if st.is_next_expression_negative then ['-', c] else [c]),
      is_next_expression_negative := false,
      previous_char := some c }
  else
    match push_number_to_rpn_container st.rpn_container st.parsing_number with
    | .error e => .error e
    | .ok container =>
      match check_operator_char_order c st.previous_char with
      | .error e => .error e
      | .ok _ =>
        match Operator.tryFrom c with
        | .error e => .error e
        | .ok op =>
          let st2 : ConvState :=
            { st with parsing_number := [], rpn_container := container, previous_char := some c }
          if op = Operator.LeftParenthesis then
            .ok { st2 with operator_stack := op :: st2.operator_stack }
          else
            match st2.operator_stack with
            | [] => .ok { st2 with operator_stack := [op] }
            | _ :: _ =>
              if op = Operator.RightParenthesis then
                let popped := popUntilLeft st2.operator_stack st2.rpn_container
                .ok { st2 with operator_stack := popped.1, rpn_container := popped.2 }
              else
                let handled := handle_binary_operator op st2.operator_stack st2.rpn_container
                .ok { st2 with operator_stack := handled.1, rpn_container := handled.2 }

/-- The conversion loop over the stripped input. -/
def convLoop : ConvState → List Char → Except ParsingError ConvState
  | st, [] => .ok st
  | st, c :: rest =>
    match convStep st c with
    | .error e => .error e
    | .ok st2 => convLoop st2 rest

/-- Models the `ReversePolishNotation` struct
(reverse_polish_notation.rs, lines 24-27). -/
structure RPN where
  tokens : List Token
deriving DecidableEq

/-- The initial conversion state (all buffers empty). -/
def initState : ConvState := ⟨[], none, [], [], false⟩

/-- Models `TryFrom<String> for ReversePolishNotation`
(reverse_polish_notation.rs, lines 33-123): strip whitespace, validate,
run the conversion loop, flush the pending number, then drain the operator
stack into the output. -/
def rpn_try_from (input : List Char) : Except ParsingError RPN :=
  let stripped := stripWhitespace input
  match validateExpr stripped with
  | .error e => .error e
  | .ok _ =>
    match convLoop initState stripped with
    | .error e => .error e
    | .ok st =>
      match push_number_to_rpn_container st.rpn_container st.parsing_number with
      | .error e => .error e
      | .ok container => .ok ⟨container ++ st.operator_stack.map Token.Operator⟩

/-- One step of `Calculate::calculate`
(reverse_polish_notation.rs, lines 128-145): an operand is pushed (the `i32`
to `f32` conversion modelled as the exact cast into `Rat`); an operator pops
`value_1` then `value_2` and pushes the result; popping from an empty stack
or hitting a parenthesis token panics in the source, modelled as `none`. -/
def calcStep (stack : List Rat) : Token → Option (List Rat)
  | Token.Operand n => some ((n : Rat) :: stack)
  | Token.Operator op =>
    match stack with
    | v1 :: v2 :: rest =>
      match op with
      | Operator.Add => some ((v1 + v2) :: rest)
      | Operator.Substract => some ((v2 - v1) :: rest)
      | Operator.Multiply => some ((v1 * v2) :: rest)
      | Operator.Divide => some ((v2 / v1) :: rest)
      | Operator.LeftParenthesis => none
      | Operator.RightParenthesis => none
    | _ => none

/-- The evaluation loop over the token sequence, value stack top at the head. -/
def calcRun : List Rat → List Token → Option (List Rat)
  | stack, [] => some stack
  | stack, t :: rest =>
    match calcStep stack t with
    | none => none
    | some stack2 => calcRun stack2 rest

/-- Models `Calculate::calculate` (reverse_polish_notation.rs, lines 125-149):
run the loop and pop the final result; the final pop of an empty stack panics
in the source, modelled as `none`. -/
def calculate (r : RPN) : Option Rat :=
  match calcRun [] r.tokens with
  | some (v :: _) => some v
  | _ => none

/-- Building then evaluating, as the interactive loop does. -/
def buildAndCalc (s : String) : Except ParsingError (Option Rat) :=
  (rpn_try_from s.toList).map calculate

/-- Number of `Operand` tokens in a sequence. -/
def countOperands (l : List Token) : Nat :=
  l.countP (fun t => match t with | Token.Operand _ => true | _ => false)

/-- Number of `Operator` tokens in a sequence. -/
def countOperators (l : List Token) : Nat :=
  l.countP (fun t => match t with | Token.Operator _ => true | _ => false)

/-- The decimal value of a digit string, most significant digit first. -/
def decimalVal (ds : List Char) : Nat :=
  ds.foldl (fun a c => a * 10 + (c.toNat - 48)) 0

/-- Per-character validity pass over the whole string: what the validator's
final loop amounts to once its adjacency checks are unreachable. -/
def check_all_chars : List Char → Except ParsingError Unit
  | [] => .ok ()
  | c :: rest =>
    match check_char_validity c with
    | .error e => .error e
    | .ok _ => check_all_chars rest

/-- The infix validator with the adjacency rules removed: only the
empty/trailing/leading/single-digit checks, the parenthesis balance, and
per-character validity remain. -/
def validateNoAdjacency (input : List Char) : Except ParsingError Unit :=
  if input = [] then .error .InvalidInput
  else if ends_with_invalid input then .error .InvalidInput
  else if starts_with_invalid input then .error .InvalidInput
  else if is_single_digit_input input then .error .InvalidInput
  else
    match evaluate_parenthes_match input with
    | .error e => .error e
    | .ok _ => check_all_chars input

/-- The binary-operator stack discipline as the design document words it:
push when the stack is empty or a `(` is on top; push when the incoming
precedence is strictly greater than the top's; otherwise pop and append
operators while the stack is non-empty and the top's precedence is at least
the incoming one's (so equal precedence pops, the left-associative order),
then push. -/
def handle_binary_operator_spec (op : Operator) (stack : List Operator) (out : List Token) :
    List Operator × List Token :=
  match stack with
  | [] => (op :: stack, out)
  | top :: _ =>
    if top = Operator.LeftParenthesis then (op :: stack, out)
    else if top.precedence < op.precedence then (op :: stack, out)
    else (op :: stack.dropWhile (fun o => decide (op.precedence ≤ o.precedence)),
          out ++ (stack.takeWhile (fun o => decide (op.precedence ≤ o.precedence))).map Token.Operator)

theorem parseDigitsAux_all_digits (l : List Char) :
    ∀ acc, (∀ c ∈ l, c.isDigit = true) →
      parseDigitsAux acc l = some (l.foldl (fun a c => a * 10 + (c.toNat - 48)) acc) := by
  induction l with
  | nil => intro acc _; rfl
  | cons c rest ih =>
    intro acc h
    have hc : c.isDigit = true := h c (by simp)
    simp only [parseDigitsAux, hc, if_true, List.foldl_cons]
    exact ih _ (fun d hd => h d (by simp [hd]))

/-- Signed running balance of parentheses. -/
def balance (l : List Char) : Int := (l.count '(' : Int) - (l.count ')' : Int)

theorem balance_nil : balance [] = 0 := by simp [balance]

theorem balance_cons_left (l : List Char) : balance ('(' :: l) = balance l + 1 := by
  simp [balance, List.count_cons]
  ring

theorem balance_cons_right (l : List Char) : balance (')' :: l) = balance l - 1 := by
  simp [balance, List.count_cons]
  ring

theorem balance_cons_other {c : Char} (h1 : c ≠ '(') (h2 : c ≠ ')') (l : List Char) :
    balance (c :: l) = balance l := by
  simp [balance, List.count_cons, Ne.symm h1, Ne.symm h2]

theorem cons_eq_append_split {c : Char} {rest p q : List Char}
    (hpq : c :: rest = p ++ q) (hp : p ≠ []) :
    ∃ p2, p = c :: p2 ∧ rest = p2 ++ q := by
  cases p with
  | nil => exact absurd rfl hp
  | cons x p2 =>
    simp only [List.cons_append, List.cons.injEq] at hpq
    exact ⟨p2, by rw [hpq.1], hpq.2⟩

theorem parenLoop_error (t : List Char) : ∀ s : Int, 0 ≤ s →
    (s + balance t ≠ 0 ∨ ∃ p q, t = p ++ q ∧ s + balance p < 0) →
    parenLoop s t = .error .ParenthesesNotMatching := by
  induction t with
  | nil =>
    intro s hs h
    have hne : s ≠ 0 := by
      rcases h with h | ⟨p, q, hpq, hneg⟩
      · rw [balance_nil] at h; omega
      · have hp : p = [] := by
          cases p with
          | nil => rfl
          | cons x xs => exact absurd hpq.symm (by simp)
        rw [hp, balance_nil] at hneg; omega
    rw [show parenLoop s [] = (if s ≠ 0 then .error .ParenthesesNotMatching else .ok ()) from rfl,
      if_pos hne]
  | cons c rest ih =>
    intro s hs h
    by_cases hc1 : c = '('
    · subst hc1
      rw [show parenLoop s ('(' :: rest) =
        (if s + 1 < 0 then .error .ParenthesesNotMatching else parenLoop (s + 1) rest) from rfl,
        if_neg (by omega)]
      apply ih (s + 1) (by omega)
      rcases h with h | ⟨p, q, hpq, hneg⟩
      · left
        rw [balance_cons_left] at h
        omega
      · rcases eq_or_ne p [] with hp | hp
        · rw [hp, balance_nil] at hneg; omega
        · obtain ⟨p2, hpeq, hrest⟩ := cons_eq_append_split hpq hp
          rw [hpeq, balance_cons_left] at hneg
          exact Or.inr ⟨p2, q, hrest, by omega⟩
    · by_cases hc2 : c = ')'
      · subst hc2
        rw [show parenLoop s (')' :: rest) =
          (if s - 1 < 0 then .error .ParenthesesNotMatching else parenLoop (s - 1) rest) from rfl]
        by_cases hz : s - 1 < 0
        · rw [if_pos hz]
        · rw [if_neg hz]
          apply ih (s - 1) (by omega)
          rcases h with h | ⟨p, q, hpq, hneg⟩
          · left
            rw [balance_cons_right] at h
            omega
          · rcases eq_or_ne p [] with hp | hp
            · rw [hp, balance_nil] at hneg; omega
            · obtain ⟨p2, hpeq, hrest⟩ := cons_eq_append_split hpq hp
              rw [hpeq, balance_cons_right] at hneg
              exact Or.inr ⟨p2, q, hrest, by omega⟩
      · rw [show parenLoop s (c :: rest) =
          (if c = '(' then
            if s + 1 < 0 then .error .ParenthesesNotMatching else parenLoop (s + 1) rest
          else if c = ')' then
            if s - 1 < 0 then .error .ParenthesesNotMatching else parenLoop (s - 1) rest
          else parenLoop s rest) from rfl, if_neg hc1, if_neg hc2]
        apply ih s hs
        rcases h with h | ⟨p, q, hpq, hneg⟩
        · left
          rw [balance_cons_other hc1 hc2] at h
          exact h
        · rcases eq_or_ne p [] with hp | hp
          · rw [hp, balance_nil] at hneg; omega
          · obtain ⟨p2, hpeq, hrest⟩ := cons_eq_append_split hpq hp
            rw [hpeq, balance_cons_other hc1 hc2] at hneg
            exact Or.inr ⟨p2, q, hrest, hneg⟩

theorem adjLoop_none_eq (l : List Char) : adjLoop none l = check_all_chars l := by
  induction l with
  | nil => rfl
  | cons c rest ih =>
    simp only [adjLoop, check_all_chars]
    cases check_char_validity c with
    | error e => rfl
    | ok u => exact ih

theorem popWhileGE_eq (op : Operator) (l : List Operator) : ∀ out : List Token,
    popWhileGE op l out =
      (l.dropWhile (fun o => decide (op.precedence ≤ o.precedence)),
       out ++ (l.takeWhile (fun o => decide (op.precedence ≤ o.precedence))).map Token.Operator) := by
  induction l with
  | nil => intro out; simp [popWhileGE]
  | cons o rest ih =>
    intro out
    by_cases h : op.precedence ≤ o.precedence
    · simp [popWhileGE, h, List.dropWhile_cons, List.takeWhile_cons, ih]
    · simp [popWhileGE, h, List.dropWhile_cons, List.takeWhile_cons]

/-- Claim C1: the spec rule "a digit may not immediately follow `)`" is not
enforced: the input "(1)2", whose stripped form has the digit '2' immediately
after ')', is accepted by the conversion (the validator's adjacency checks are
unreachable, and the conversion loop never checks ordering before a digit),
producing the token sequence [1, 2] instead of the InvalidInput error. -/
theorem C1_digit_after_closing_paren_accepted :
    rpn_try_from ("(1)2".toList) = .ok ⟨[Token.Operand 1, Token.Operand 2]⟩ ∧
    rpn_try_from ("(1)2".toList) ≠ .error ParsingError.InvalidInput := by
  exact ⟨by decide, by decide⟩

/-- Claim C2: the well-formed-postfix invariant fails on the code: the input
"(1)2" is accepted by the conversion yet yields two Operand tokens and zero
Operator tokens, not exactly one more Operand than Operator. -/
theorem C2_postfix_invariant_violated :
    rpn_try_from ("(1)2".toList) = .ok ⟨[Token.Operand 1, Token.Operand 2]⟩ ∧
    countOperands [Token.Operand 1, Token.Operand 2] ≠
      countOperators [Token.Operand 1, Token.Operand 2] + 1 := by
  exact ⟨by decide, by decide⟩

/-- Claim C3, counterexample: "--5" has two leading signs, so per the claim it
must be InvalidInput, but parse_number accepts it and returns 5 (the code
detects a '-' anywhere, strips only the first character, and negates). -/
theorem C3_counterexample :
    parse_number ("--5".toList) = .ok 5 ∧
    parse_number ("--5".toList) ≠ .error ParsingError.InvalidInput := by
  exact ⟨by decide, by decide⟩

/-- Claim C3, amended: parse_number does return Ok(n) with the correct signed
value on every input that is an optional single leading '-' followed by one or
more ASCII digits (value within range), but these are not the only accepted
inputs (see the counterexample). -/
theorem C3_parse_number_digit_runs (ds : List Char) (h1 : ds ≠ [])
    (h2 : ∀ c ∈ ds, c.isDigit = true) (h3 : decimalVal ds ≤ 2147483647) :
    parse_number ds = .ok ((decimalVal ds : Int)) ∧
    parse_number ('-' :: ds) = .ok (-((decimalVal ds : Int))) := by
  have hmem : '-' ∉ ds := fun hm => absurd (h2 '-' hm) (by decide)
  have hcon : ds.contains '-' = false := by
    simpa using hmem
  obtain ⟨d, rest, rfl⟩ := List.exists_cons_of_ne_nil h1
  have hd : d.isDigit = true := h2 d (by simp)
  have hdp : ¬ (d = '+') := fun he => by rw [he] at hd; exact absurd hd (by decide)
  have hdm : ¬ (d = '-') := fun he => by rw [he] at hd; exact absurd hd (by decide)
  have hdigits : parseDigits (d :: rest) = some (decimalVal (d :: rest)) := by
    rw [parseDigits, if_neg (by simp)]
    exact parseDigitsAux_all_digits (d :: rest) 0 h2
  have hparse : rustParseI32 (d :: rest) = some ((decimalVal (d :: rest) : Int)) := by
    rw [show rustParseI32 (d :: rest) =
      (if d = '+' then
        (parseDigits rest).bind (fun n => if n ≤ 2147483647 then some ((n : Int)) else none)
      else if d = '-' then
        (parseDigits rest).bind (fun n => if n ≤ 2147483648 then some (-(n : Int)) else none)
      else
        (parseDigits (d :: rest)).bind
          (fun n => if n ≤ 2147483647 then some ((n : Int)) else none)) from rfl,
      if_neg hdp, if_neg hdm, hdigits]
    simp [h3]
  constructor
  · simp only [parse_number, hcon, Bool.false_eq_true, if_false, if_neg h1, hparse, mul_one]
  · have hcon2 : ('-' :: d :: rest).contains '-' = true := by simp
    simp only [parse_number, hcon2, if_true, List.drop_succ_cons, List.drop_zero,
      if_neg h1, hparse]
    rw [Except.ok.injEq]
    ring

/-- Claim C3, witness: the amended statement evaluated at the digit run "42". -/
theorem C3_witness :
    parse_number ("42".toList) = .ok 42 ∧ parse_number ("-42".toList) = .ok (-42) := by
  have h := C3_parse_number_digit_runs ("42".toList) (by decide) (by decide) (by decide)
  have hv : ((decimalVal ("42".toList) : Int)) = 42 := by decide
  constructor
  · rw [h.1, hv]
  · rw [show ("-42".toList) = '-' :: ("42".toList) from by decide, h.2, hv]

/-- Claim C4, counterexample: "(" has unequal parenthesis counts, yet building
returns InvalidInput, not ParenthesesNotMatching, because the trailing-character
check runs before the balance check. -/
theorem C4_counterexample :
    rpn_try_from ("(".toList) = .error ParsingError.InvalidInput ∧
    rpn_try_from ("(".toList) ≠ .error ParsingError.ParenthesesNotMatching := by
  exact ⟨by decide, by decide⟩

/-- Claim C4, amended: for every input whose whitespace-stripped form is
non-empty, does not end in one of `( - + * /`, does not start with one of
`) + * /`, and is not a single digit, an unequal count of '(' and ')' or a
prefix in which ')' outnumbers '(' makes the build return the
ParenthesesNotMatching error. -/
theorem C4_unbalanced_gives_paren_error (s : List Char)
    (h1 : stripWhitespace s ≠ [])
    (h2 : ends_with_invalid (stripWhitespace s) = false)
    (h3 : starts_with_invalid (stripWhitespace s) = false)
    (h4 : is_single_digit_input (stripWhitespace s) = false)
    (h5 : (stripWhitespace s).count '(' ≠ (stripWhitespace s).count ')' ∨
          ∃ p q, stripWhitespace s = p ++ q ∧ p.count '(' < p.count ')') :
    rpn_try_from s = .error .ParenthesesNotMatching := by
  have hp : evaluate_parenthes_match (stripWhitespace s) = .error .ParenthesesNotMatching := by
    apply parenLoop_error (stripWhitespace s) 0 le_rfl
    rcases h5 with h5 | ⟨p, q, hpq, hgt⟩
    · left
      simp only [balance]
      omega
    · exact Or.inr ⟨p, q, hpq, by simp only [balance]; omega⟩
  have hv : validateExpr (stripWhitespace s) = .error .ParenthesesNotMatching := by
    rw [validateExpr, if_neg h1, if_neg (by simp [h2]), if_neg (by simp [h3]),
      if_neg (by simp [h4]), hp]
  simp only [rpn_try_from, hv]

/-- Claim C4, witness: the amended statement evaluated at "(()" (one '(' too
many, all other validator pre-checks passing). -/
theorem C4_witness : rpn_try_from ("(()".toList) = .error .ParenthesesNotMatching := by
  apply C4_unbalanced_gives_paren_error
  · decide
  · decide
  · decide
  · decide
  · exact Or.inl (by decide)

/-- Claim C5: the four literal scenarios build successfully and evaluate to the
stated results.  The evaluator's f32 arithmetic is modelled over the exact
rationals; on these scenarios every intermediate value is a small integer
(each division is exact), so IEEE-754 single-precision arithmetic agrees with
the exact computation and the stated 0.0 and -1000.0 results. -/
theorem C5_literal_scenarios :
    buildAndCalc "-3+5/5*(10-3/3)-6" = .ok (some 0) ∧
    buildAndCalc "((-3+5/5*(((10-3/3)))-6))" = .ok (some 0) ∧
    buildAndCalc "-3     +    501/501*(    ((10-3/3)))   -6" = .ok (some 0) ∧
    buildAndCalc "(((-1000)))" = .ok (some (-1000)) := by
  have t1 : rpn_try_from ("-3+5/5*(10-3/3)-6".toList) = .ok ⟨[Token.Operand (-3),
      Token.Operand 5, Token.Operand 5, Token.Operator Operator.Divide, Token.Operand 10,
      Token.Operand 3, Token.Operand 3, Token.Operator Operator.Divide,
      Token.Operator Operator.Substract, Token.Operator Operator.Multiply,
      Token.Operator Operator.Add, Token.Operand 6, Token.Operator Operator.Substract]⟩ := by
    decide
  have t2 : rpn_try_from ("((-3+5/5*(((10-3/3)))-6))".toList) = .ok ⟨[Token.Operand (-3),
      Token.Operand 5, Token.Operand 5, Token.Operator Operator.Divide, Token.Operand 10,
      Token.Operand 3, Token.Operand 3, Token.Operator Operator.Divide,
      Token.Operator Operator.Substract, Token.Operator Operator.Multiply,
      Token.Operator Operator.Add, Token.Operand 6, Token.Operator Operator.Substract]⟩ := by
    decide
  have t3 : rpn_try_from ("-3     +    501/501*(    ((10-3/3)))   -6".toList) =
      .ok ⟨[Token.Operand (-3),
      Token.Operand 501, Token.Operand 501, Token.Operator Operator.Divide, Token.Operand 10,
      Token.Operand 3, Token.Operand 3, Token.Operator Operator.Divide,
      Token.Operator Operator.Substract, Token.Operator Operator.Multiply,
      Token.Operator Operator.Add, Token.Operand 6, Token.Operator Operator.Substract]⟩ := by
    decide
  have t4 : rpn_try_from ("(((-1000)))".toList) = .ok ⟨[Token.Operand (-1000)]⟩ := by
    decide
  refine ⟨?_, ?_, ?_, ?_⟩
  · simp only [buildAndCalc, t1, Except.map]
    norm_num [calculate, calcRun, calcStep]
  · simp only [buildAndCalc, t2, Except.map]
    norm_num [calculate, calcRun, calcStep]
  · simp only [buildAndCalc, t3, Except.map]
    norm_num [calculate, calcRun, calcStep]
  · simp only [buildAndCalc, t4, Except.map]
    norm_num [calculate, calcRun, calcStep]

/-- Claim C6: the conversion's binary-operator handling agrees, for every
operator and every stack and output, with the described discipline: push on an
empty stack or a `(` top; push on strictly greater precedence; otherwise pop
and append while the stack top's precedence is greater than or equal to the
incoming operator's, then push (equal precedence pops, the left-associative
order for the four arithmetic operators). -/
theorem C6_binary_operator_stack_discipline (op : Operator) (stack : List Operator)
    (out : List Token) :
    handle_binary_operator op stack out = handle_binary_operator_spec op stack out := by
  cases stack with
  | nil => rfl
  | cons top rest =>
    simp only [handle_binary_operator, handle_binary_operator_spec]
    by_cases h1 : top = Operator.LeftParenthesis
    · simp [h1]
    · by_cases h2 : top.precedence < op.precedence
      · simp [h1, h2]
      · simp [h1, h2, popWhileGE_eq]

/-- Claim C7: each binary operator pops the right operand first (the value
pushed later) and the left operand second, and pushes lhs + rhs, lhs - rhs,
lhs * rhs, or lhs / rhs accordingly; in particular subtraction and division
take the second-popped value as the left operand. -/
theorem C7_evaluator_pop_order (lhs rhs : Rat) (rest : List Rat) :
    calcStep (rhs :: lhs :: rest) (Token.Operator Operator.Add) = some ((lhs + rhs) :: rest) ∧
    calcStep (rhs :: lhs :: rest) (Token.Operator Operator.Substract) =
      some ((lhs - rhs) :: rest) ∧
    calcStep (rhs :: lhs :: rest) (Token.Operator Operator.Multiply) =
      some ((lhs * rhs) :: rest) ∧
    calcStep (rhs :: lhs :: rest) (Token.Operator Operator.Divide) =
      some ((lhs / rhs) :: rest) := by
  refine ⟨?_, ?_, ?_, ?_⟩
  · simp [calcStep, add_comm]
  · simp [calcStep]
  · simp [calcStep, mul_comm]
  · simp [calcStep]

/-- Claim C8: any input whose whitespace-stripped form is a single digit
character is rejected with InvalidInput (the validator's dedicated
single-digit rule). -/
theorem C8_single_digit_rejected (s : List Char) (c : Char)
    (hc : c.isDigit = true) (hs : stripWhitespace s = [c]) :
    rpn_try_from s = .error .InvalidInput := by
  have hn1 : ¬ (c = '(') := fun he => by rw [he] at hc; exact absurd hc (by decide)
  have hn2 : ¬ (c = ')') := fun he => by rw [he] at hc; exact absurd hc (by decide)
  have hn3 : ¬ (c = '+') := fun he => by rw [he] at hc; exact absurd hc (by decide)
  have hn4 : ¬ (c = '-') := fun he => by rw [he] at hc; exact absurd hc (by decide)
  have hn5 : ¬ (c = '*') := fun he => by rw [he] at hc; exact absurd hc (by decide)
  have hn6 : ¬ (c = '/') := fun he => by rw [he] at hc; exact absurd hc (by decide)
  have h2 : ends_with_invalid [c] = false := by
    simp [ends_with_invalid, hn1, hn3, hn4, hn5, hn6]
  have h3 : starts_with_invalid [c] = false := by
    simp [starts_with_invalid, hn2, hn3, hn5, hn6]
  have hv : validateExpr [c] = .error .InvalidInput := by
    rw [validateExpr, if_neg (by simp), if_neg (by simp [h2]), if_neg (by simp [h3]),
      if_pos (by simp [is_single_digit_input, hc])]
  simp only [rpn_try_from, hs, hv]

/-- Claim C8, witness: the single digit "5" is rejected. -/
theorem C8_witness : rpn_try_from ("5".toList) = .error .InvalidInput := by
  apply C8_single_digit_rejected ("5".toList) '5'
  · decide
  · decide

/-- Claim C10: the validator's adjacency loop never fires: its previous-char
state is initialised to none and every iteration continues before the
assignment at the bottom of the loop, so the validator is observationally
equal to the variant with the adjacency rules removed — it never rejects an
input for an adjacency violation. -/
theorem C10_adjacency_scan_is_dead (input : List Char) :
    validateExpr input = validateNoAdjacency input := by
  simp only [validateExpr, validateNoAdjacency, adjLoop_none_eq]

end Calculator
